import Mathlib

/-!
Verification of the `configura` typed configuration registry.

The Go source keeps one map per supported scalar type inside a `config`
struct.  We embed each Go map `map[Variable[T]]T` as a function
`String → Option τ` (a `Variable[T]` is a string), mirror the 17 `reg*`
fields of the struct, and embed each operation (`Write`, `Load`, the 17
typed accessors, `checkKey`, `Exists`, `formatKeys`, `Merge`, `Fallback`)
as a pure Lean function.  Go's runtime type switches over `any` become
matches over closed inductives (`TypeKind`, `WriteArg`, `KeyArg`) whose
constructors enumerate exactly the members of the source's `constraint`
interface, plus an `other` constructor where the Go value is an `any`
that may fall outside that set.

Machine integers are modelled as `Int`/`Nat` (stored values are only
ever looked up, never overflowed), `[]byte` as `List Nat`, `[]rune` as
`List Char`, and float values as `Rat` (stored values are only stored
and retrieved verbatim; no float arithmetic occurs in the source).
Mutex operations guard the maps in the source and have no observable
effect on the sequential semantics, so they are elided.
-/

/-- The 17 member types of the Go `constraint` interface
(`string | int | int8 | ... | bool`, configura.go line 12). -/
inductive TypeKind where
  | tstring
  | tint
  | tint8
  | tint16
  | tint32
  | tint64
  | tuint
  | tuint8
  | tuint16
  | tuint32
  | tuint64
  | tuintptr
  | tbytes
  | trunes
  | tfloat32
  | tfloat64
  | tbool
  deriving DecidableEq, Repr

/-- Lean carrier type for each supported Go type. -/
@[reducible] def TypeKind.denote : TypeKind → Type
  | .tstring => String
  | .tint => Int
  | .tint8 => Int
  | .tint16 => Int
  | .tint32 => Int
  | .tint64 => Int
  | .tuint => Nat
  | .tuint8 => Nat
  | .tuint16 => Nat
  | .tuint32 => Nat
  | .tuint64 => Nat
  | .tuintptr => Nat
  | .tbytes => List Nat
  | .trunes => List Char
  | .tfloat32 => Rat
  | .tfloat64 => Rat
  | .tbool => Bool

/-- The Go zero value of each supported type: `""`, `0`, `nil` slice,
`0.0`, `false` — the literals returned by the accessor methods when the
key is absent. -/
def TypeKind.zero : (k : TypeKind) → k.denote
  | .tstring => ""
  | .tint => 0
  | .tint8 => 0
  | .tint16 => 0
  | .tint32 => 0
  | .tint64 => 0
  | .tuint => 0
  | .tuint8 => 0
  | .tuint16 => 0
  | .tuint32 => 0
  | .tuint64 => 0
  | .tuintptr => 0
  | .tbytes => []
  | .trunes => []
  | .tfloat32 => 0
  | .tfloat64 => 0
  | .tbool => false

/-- A Go map `map[Variable[T]]T`: `Variable[T]` is a string, so the map
is a partial function from key names to values. -/
def Reg (α : Type) : Type := String → Option α

/-- The empty Go map (`make(map[Variable[T]]T)`). -/
def Reg.empty {α : Type} : Reg α := fun _ => none

/-- Go map assignment `m[key] = v`. -/
def Reg.insert {α : Type} (m : Reg α) (key : String) (v : α) : Reg α :=
  fun k => if k = key then some v else m k

/-- Go map lookup `m[key]`. -/
def Reg.find {α : Type} (m : Reg α) (key : String) : Option α := m key

/-- Go `maps.Copy(dst, src)`: every key of `src` is written into `dst`,
overwriting; keys absent from `src` keep their `dst` value. -/
def mapsCopy {α : Type} (dst src : Reg α) : Reg α :=
  fun k =>
    match src k with
    | some v => some v
    | none => dst k

/-- The `config` struct (configura.go lines 142-161): one map per
supported type.  The `sync.RWMutex` field has no sequential content and
is elided. -/
structure Config where
  regString : Reg String
  regInt : Reg Int
  regInt8 : Reg Int
  regInt16 : Reg Int
  regInt32 : Reg Int
  regInt64 : Reg Int
  regUint : Reg Nat
  regUint8 : Reg Nat
  regUint16 : Reg Nat
  regUint32 : Reg Nat
  regUint64 : Reg Nat
  regUintptr : Reg Nat
  regBytes : Reg (List Nat)
  regRunes : Reg (List Char)
  regFloat32 : Reg Rat
  regFloat64 : Reg Rat
  regBool : Reg Bool

/-- Go `New()`: a registry with one empty map per supported type. -/
def Config.New : Config where
  regString := Reg.empty
  regInt := Reg.empty
  regInt8 := Reg.empty
  regInt16 := Reg.empty
  regInt32 := Reg.empty
  regInt64 := Reg.empty
  regUint := Reg.empty
  regUint8 := Reg.empty
  regUint16 := Reg.empty
  regUint32 := Reg.empty
  regUint64 := Reg.empty
  regUintptr := Reg.empty
  regBytes := Reg.empty
  regRunes := Reg.empty
  regFloat32 := Reg.empty
  regFloat64 := Reg.empty
  regBool := Reg.empty

/-- Projection of the per-type map of a registry, indexed by the type. -/
def Config.regOf (c : Config) : (k : TypeKind) → Reg k.denote
  | .tstring => c.regString
  | .tint => c.regInt
  | .tint8 => c.regInt8
  | .tint16 => c.regInt16
  | .tint32 => c.regInt32
  | .tint64 => c.regInt64
  | .tuint => c.regUint
  | .tuint8 => c.regUint8
  | .tuint16 => c.regUint16
  | .tuint32 => c.regUint32
  | .tuint64 => c.regUint64
  | .tuintptr => c.regUintptr
  | .tbytes => c.regBytes
  | .trunes => c.regRunes
  | .tfloat32 => c.regFloat32
  | .tfloat64 => c.regFloat64
  | .tbool => c.regBool

/-- Replacement of the per-type map of a registry, indexed by the type. -/
def Config.setReg (c : Config) : (k : TypeKind) → Reg k.denote → Config
  | .tstring, r => { c with regString := r }
  | .tint, r => { c with regInt := r }
  | .tint8, r => { c with regInt8 := r }
  | .tint16, r => { c with regInt16 := r }
  | .tint32, r => { c with regInt32 := r }
  | .tint64, r => { c with regInt64 := r }
  | .tuint, r => { c with regUint := r }
  | .tuint8, r => { c with regUint8 := r }
  | .tuint16, r => { c with regUint16 := r }
  | .tuint32, r => { c with regUint32 := r }
  | .tuint64, r => { c with regUint64 := r }
  | .tuintptr, r => { c with regUintptr := r }
  | .tbytes, r => { c with regBytes := r }
  | .trunes, r => { c with regRunes := r }
  | .tfloat32, r => { c with regFloat32 := r }
  | .tfloat64, r => { c with regFloat64 := r }
  | .tbool, r => { c with regBool := r }

/-- Method `func (c *config) String(key Variable[string]) string`
(configura.go lines 187-194): the stored value, or `""` if absent. -/
def Config.getString (c : Config) (key : String) : String :=
  match c.regString.find key with
  | some value => value
  | none => ""

/-- Method `func (c *config) Int` (lines 196-203): stored value or `0`. -/
def Config.getInt (c : Config) (key : String) : Int :=
  match c.regInt.find key with
  | some value => value
  | none => 0

/-- Method `func (c *config) Int8` (lines 205-212): stored value or `0`. -/
def Config.getInt8 (c : Config) (key : String) : Int :=
  match c.regInt8.find key with
  | some value => value
  | none => 0

/-- Method `func (c *config) Int16` (lines 214-221): stored value or `0`. -/
def Config.getInt16 (c : Config) (key : String) : Int :=
  match c.regInt16.find key with
  | some value => value
  | none => 0

/-- Method `func (c *config) Int32` (lines 223-230): stored value or `0`. -/
def Config.getInt32 (c : Config) (key : String) : Int :=
  match c.regInt32.find key with
  | some value => value
  | none => 0

/-- Method `func (c *config) Int64` (lines 232-239): stored value or `0`. -/
def Config.getInt64 (c : Config) (key : String) : Int :=
  match c.regInt64.find key with
  | some value => value
  | none => 0

/-- Method `func (c *config) Uint` (lines 241-248): stored value or `0`. -/
def Config.getUint (c : Config) (key : String) : Nat :=
  match c.regUint.find key with
  | some value => value
  | none => 0

/-- Method `func (c *config) Uint8` (lines 250-257): stored value or `0`. -/
def Config.getUint8 (c : Config) (key : String) : Nat :=
  match c.regUint8.find key with
  | some value => value
  | none => 0

/-- Method `func (c *config) Uint16` (lines 259-266): stored value or `0`. -/
def Config.getUint16 (c : Config) (key : String) : Nat :=
  match c.regUint16.find key with
  | some value => value
  | none => 0

/-- Method `func (c *config) Uint32` (lines 268-275): stored value or `0`. -/
def Config.getUint32 (c : Config) (key : String) : Nat :=
  match c.regUint32.find key with
  | some value => value
  | none => 0

/-- Method `func (c *config) Uint64` (lines 277-284): stored value or `0`. -/
def Config.getUint64 (c : Config) (key : String) : Nat :=
  match c.regUint64.find key with
  | some value => value
  | none => 0

/-- Method `func (c *config) Uintptr` (lines 286-293): stored value or `0`. -/
def Config.getUintptr (c : Config) (key : String) : Nat :=
  match c.regUintptr.find key with
  | some value => value
  | none => 0

/-- Method `func (c *config) Bytes` (lines 295-302): stored value or `nil`. -/
def Config.getBytes (c : Config) (key : String) : List Nat :=
  match c.regBytes.find key with
  | some value => value
  | none => []

/-- Method `func (c *config) Runes` (lines 304-311): stored value or `nil`. -/
def Config.getRunes (c : Config) (key : String) : List Char :=
  match c.regRunes.find key with
  | some value => value
  | none => []

/-- Method `func (c *config) Float32` (lines 313-320): stored value or `0.0`. -/
def Config.getFloat32 (c : Config) (key : String) : Rat :=
  match c.regFloat32.find key with
  | some value => value
  | none => 0

/-- Method `func (c *config) Float64` (lines 322-329): stored value or `0.0`. -/
def Config.getFloat64 (c : Config) (key : String) : Rat :=
  match c.regFloat64.find key with
  | some value => value
  | none => 0

/-- Method `func (c *config) Bool` (lines 331-338): stored value or `false`. -/
def Config.getBool (c : Config) (key : String) : Bool :=
  match c.regBool.find key with
  | some value => value
  | none => false

/-- Dispatch to the typed accessor for a given type: the accessor a Go
caller would invoke for a key of type `k.denote`. -/
def Config.getOf (c : Config) : (k : TypeKind) → String → k.denote
  | .tstring => c.getString
  | .tint => c.getInt
  | .tint8 => c.getInt8
  | .tint16 => c.getInt16
  | .tint32 => c.getInt32
  | .tint64 => c.getInt64
  | .tuint => c.getUint
  | .tuint8 => c.getUint8
  | .tuint16 => c.getUint16
  | .tuint32 => c.getUint32
  | .tuint64 => c.getUint64
  | .tuintptr => c.getUintptr
  | .tbytes => c.getBytes
  | .trunes => c.getRunes
  | .tfloat32 => c.getFloat32
  | .tfloat64 => c.getFloat64
  | .tbool => c.getBool

/-- Argument of the generic `Write[T constraint]` after Go's
`any(values)` conversion: one constructor per case of the type switch
(configura.go lines 54-88), plus `other` for a dynamic type outside the
switch (the `default` branch at lines 89-90, reachable only from hosts
without the compile-time constraint). -/
inductive WriteArg where
  | typed (k : TypeKind) (values : List (String × k.denote))
  | other

/-- One `maps.Copy` target update: fold the key/value pairs of the `values`
map into the per-type map. -/
def writeCopy (c : Config) (k : TypeKind) (values : List (String × k.denote)) : Config :=
  c.setReg k (values.foldl (fun m kv => m.insert kv.1 kv.2) (c.regOf k))

/-- Function `func Write[T constraint](cfg Config, values map[Variable[T]]T) error`
(configura.go lines 42-94).  Returns the Go `error` result, paired with
the registry as left by the call (mutation made explicit): `nil` config
is rejected, a supported `values` type is copied into its map, the
`default` switch branch reports an unsupported type and leaves the
registry untouched. -/
def Write (cfg : Option Config) (values : WriteArg) : Option String × Option Config :=
  match cfg with
  | none => (some "Config cannot be nil", none)
  | some c =>
    match values with
    | .typed k kvs => (none, some (writeCopy c k kvs))
    | .other => (some "unsupported values type", some c)

/-- The process environment visible to `os.Getenv`/`os.LookupEnv`:
`none` means the variable is unset. -/
def Env : Type := String → Option String

/-- Decimal digits to a number: `none` unless the string is one or more
ASCII digits. -/
def parseDigits (cs : List Char) : Option Nat :=
  match cs with
  | [] => none
  | _ =>
    if cs.all (fun c => c.isDigit) then
      some (cs.foldl (fun acc c => acc * 10 + (c.toNat - 48)) 0)
    else
      none

/-- Modelled from the spec: the signed-integer text parser used by the
per-type `Load` helpers (`Int`, `Int8`, ..., free functions of this
repository that are not under `src/`).  "integers ... use standard
base-10 textual parsing with overflow-for-width treated as a parse
failure": an optional sign, decimal digits, and a range check for the
width. -/
def parseIntRange (lo hi : Int) (s : String) : Option Int :=
  let body :=
    match s.data with
    | '-' :: rest => (parseDigits rest).map (fun n => -(n : Int))
    | '+' :: rest => (parseDigits rest).map (fun n => (n : Int))
    | cs => (parseDigits cs).map (fun n => (n : Int))
  match body with
  | some v => if lo ≤ v ∧ v ≤ hi then some v else none
  | none => none

/-- Modelled from the spec: the unsigned-integer text parser used by the
per-type `Load` helpers (`Uint`, `Uint8`, ..., not under `src/`):
decimal digits with a range check for the width. -/
def parseUintRange (hi : Nat) (s : String) : Option Nat :=
  match parseDigits s.data with
  | some v => if v ≤ hi then some v else none
  | none => none

/-- Modelled from the spec: the boolean text parser used by the `Bool`
`Load` helper (not under `src/`).  "boolean accepts the conventional
truthy/falsy string forms" — the conventional Go forms. -/
def parseBoolText (s : String) : Option Bool :=
  if s = "1" ∨ s = "t" ∨ s = "T" ∨ s = "TRUE" ∨ s = "true" ∨ s = "True" then
    some true
  else if s = "0" ∨ s = "f" ∨ s = "F" ∨ s = "FALSE" ∨ s = "false" ∨ s = "False" then
    some false
  else
    none

/-- UTF-8 encoding of one character, as byte values. -/
def utf8Bytes (c : Char) : List Nat :=
  let n := c.toNat
  if n < 128 then
    [n]
  else if n < 2048 then
    [192 + n / 64, 128 + n % 64]
  else if n < 65536 then
    [224 + n / 4096, 128 + n / 64 % 64, 128 + n % 64]
  else
    [240 + n / 262144, 128 + n / 4096 % 64, 128 + n / 64 % 64, 128 + n % 64]

/-- The bytes of a Go string (`[]byte(s)`): its UTF-8 encoding. -/
def strBytes (s : String) : List Nat :=
  s.data.flatMap utf8Bytes

/-- Modelled from the spec: the float text parser used by the `Float32`/
`Float64` `Load` helpers (not under `src/`).  "floats use standard
base-10 textual parsing with overflow-for-width treated as a parse
failure": optional sign, decimal digits, optional fraction, and a
magnitude bound for the width. -/
def parseFloatRange (maxAbs : Rat) (s : String) : Option Rat :=
  let mag := fun (cs : List Char) =>
    match cs.span (fun c => c ≠ '.') with
    | (ip, []) => (parseDigits ip).map (fun n => (n : Rat))
    | (ip, _ :: fp) =>
      match parseDigits ip, parseDigits fp with
      | some i, some f => some ((i : Rat) + (f : Rat) / ((10 : Rat) ^ fp.length))
      | _, _ => none
  let body :=
    match s.data with
    | '-' :: rest => (mag rest).map (fun q => -q)
    | '+' :: rest => mag rest
    | cs => mag cs
  match body with
  | some v => if |v| ≤ maxAbs then some v else none
  | none => none

/-- Largest finite float32 magnitude, `(2 - 2^-23) * 2^127`. -/
def maxFloat32 : Rat := (2 ^ 24 - 1) * 2 ^ 104

/-- Largest finite float64 magnitude, `(2 - 2^-52) * 2^1023`. -/
def maxFloat64 : Rat := (2 ^ 53 - 1) * 2 ^ 971

/-- Modelled from the spec: the text parser of each supported type, as
used by the per-type `Load` helpers that are not under `src/`.  Strings
and byte/character sequences "are taken as the raw or decoded text
verbatim" and always parse. -/
def TypeKind.parse : (k : TypeKind) → String → Option k.denote
  | .tstring => fun s => some s
  | .tint => parseIntRange (-(2 ^ 63)) (2 ^ 63 - 1)
  | .tint8 => parseIntRange (-(2 ^ 7)) (2 ^ 7 - 1)
  | .tint16 => parseIntRange (-(2 ^ 15)) (2 ^ 15 - 1)
  | .tint32 => parseIntRange (-(2 ^ 31)) (2 ^ 31 - 1)
  | .tint64 => parseIntRange (-(2 ^ 63)) (2 ^ 63 - 1)
  | .tuint => parseUintRange (2 ^ 64 - 1)
  | .tuint8 => parseUintRange (2 ^ 8 - 1)
  | .tuint16 => parseUintRange (2 ^ 16 - 1)
  | .tuint32 => parseUintRange (2 ^ 32 - 1)
  | .tuint64 => parseUintRange (2 ^ 64 - 1)
  | .tuintptr => parseUintRange (2 ^ 64 - 1)
  | .tbytes => fun s => some (strBytes s)
  | .trunes => fun s => some s.data
  | .tfloat32 => parseFloatRange maxFloat32
  | .tfloat64 => parseFloatRange maxFloat64
  | .tbool => parseBoolText

/-- Modelled from the spec: the shared shape of the per-type `Load`
helpers (`String(key, fallback)`, `Int(key, fallback)`, ..., free
functions of this repository that are not under `src/`): look up the
environment variable named by the key's name; if it is set and its text
parses as the declared type, the parsed value; if it is unset or fails
to parse, the fallback.  No error is produced. -/
def envValue (env : Env) (k : TypeKind) (name : String) (fallback : k.denote) : k.denote :=
  match env name with
  | some text =>
    match k.parse text with
    | some v => v
    | none => fallback
  | none => fallback

/-- Function `func Load[T constraint](config *config, key Variable[T], fallback T)`
(configura.go lines 99-138): dispatches on the key's type and stores
the per-type helper's result under the key in that type's map. -/
def Load (env : Env) (c : Config) (k : TypeKind) (name : String) (fallback : k.denote) : Config :=
  c.setReg k ((c.regOf k).insert name (envValue env k name fallback))

/-- Struct `type MissingVariableError struct { Keys []string }`
(configura.go lines 341-343). -/
structure MissingVariableError where
  Keys : List String
  deriving DecidableEq, Repr

/-- The loop of `formatKeys` (configura.go lines 360-366):
`result := ""` then for each indexed key, `", "` is appended first
whenever the index is positive, then the key. -/
def formatKeysLoop (keys : List String) (i : Nat) (result : String) : String :=
  match keys with
  | [] => result
  | key :: rest => formatKeysLoop rest (i + 1) ((if 0 < i then result ++ ", " else result) ++ key)

/-- Function `func formatKeys(keys []string) string` (configura.go lines
356-368): `"none"` for an empty list, otherwise the keys joined by
`", "` via the indexed loop. -/
def formatKeys (keys : List String) : String :=
  if keys.length = 0 then "none"
  else formatKeysLoop keys 0 ""

/-- Method `func (e MissingVariableError) Error() string` (configura.go lines
346-348). -/
def MissingVariableError.ErrorString (e : MissingVariableError) : String :=
  "missing configuration variables: " ++ formatKeys e.Keys

/-- The Go error values of the package: the package-level sentinel
`ErrMissingVariable = errors.New("missing configuration variables")`
(configura.go line 9) — a distinct identity, as `errors.New` values
compare by pointer —, a `MissingVariableError`, and other `errors.New`
values (such as those returned by `Write`). -/
inductive GoError where
  | sentinelMissingVariable
  | missing (e : MissingVariableError)
  | simple (msg : String)
  deriving DecidableEq, Repr

/-- The package-level sentinel `ErrMissingVariable`. -/
def ErrMissingVariable : GoError := GoError.sentinelMissingVariable

/-- Go `errors.Unwrap`: `MissingVariableError.Unwrap` (configura.go
lines 351-353) returns `ErrMissingVariable`; no other error value of
the package has an `Unwrap` method. -/
def GoError.unwrap : GoError → Option GoError
  | .missing _ => some ErrMissingVariable
  | _ => none

/-- Argument of `Exists(keys ...any)` / `checkKey(key any)`: a typed
`Variable[T]` key for a supported `T`, or any other dynamic type (which
no case of `checkKey`'s type switch matches). -/
inductive KeyArg where
  | typed (k : TypeKind) (name : String)
  | other

/-- Method `func (c *config) checkKey(key any) (string, bool)` (configura.go
lines 374-434): for a `Variable[T]` key, the key's name and whether the
per-type map contains it; for any other dynamic type no switch case
runs, so `keyName` and `exists` keep their zero values `""`/`false`. -/
def Config.checkKey (c : Config) (key : KeyArg) : String × Bool :=
  match key with
  | .typed k name => (name, ((c.regOf k).find name).isSome)
  | .other => ("", false)

/-- The `missingKeys` collection loop of `Exists` (configura.go lines
439-444): the names of the keys whose `checkKey` lookup fails, in input
order. -/
def Config.missingKeys (c : Config) (keys : List KeyArg) : List String :=
  keys.filterMap (fun key =>
    match c.checkKey key with
    | (_, true) => none
    | (keyName, false) => some keyName)

/-- Method `func (c *config) Exists(keys ...any) error` (configura.go lines
438-451): collects the missing key names; a `MissingVariableError`
carrying them if any, otherwise no error. -/
def Config.Exists (c : Config) (keys : List KeyArg) : Option MissingVariableError :=
  let missing := c.missingKeys keys
  if 0 < missing.length then some { Keys := missing } else none

/-- Function `func Fallback[T comparable](value T, fallback T) T` (configura.go
lines 455-461): `fallback` when `value` is the type's zero value, else
`value`. -/
def Fallback {α : Type} [DecidableEq α] (zeroVal : α) (value fallback : α) : α :=
  if value = zeroVal then fallback else value

/-- The body of `Merge`'s loop for one source (configura.go lines
475-491): `maps.Copy` of each of the 17 maps of the source into the
accumulated registry. -/
def mergeOne (merged c : Config) : Config where
  regString := mapsCopy merged.regString c.regString
  regInt := mapsCopy merged.regInt c.regInt
  regInt8 := mapsCopy merged.regInt8 c.regInt8
  regInt16 := mapsCopy merged.regInt16 c.regInt16
  regInt32 := mapsCopy merged.regInt32 c.regInt32
  regInt64 := mapsCopy merged.regInt64 c.regInt64
  regUint := mapsCopy merged.regUint c.regUint
  regUint8 := mapsCopy merged.regUint8 c.regUint8
  regUint16 := mapsCopy merged.regUint16 c.regUint16
  regUint32 := mapsCopy merged.regUint32 c.regUint32
  regUint64 := mapsCopy merged.regUint64 c.regUint64
  regUintptr := mapsCopy merged.regUintptr c.regUintptr
  regBytes := mapsCopy merged.regBytes c.regBytes
  regRunes := mapsCopy merged.regRunes c.regRunes
  regFloat32 := mapsCopy merged.regFloat32 c.regFloat32
  regFloat64 := mapsCopy merged.regFloat64 c.regFloat64
  regBool := mapsCopy merged.regBool c.regBool

/-- Function `func Merge(cfgs ...Config) Config` (configura.go lines 466-497):
starting from `New()`, copies every per-type map of each source into
the result, in argument order. -/
def Merge (cfgs : List Config) : Config :=
  cfgs.foldl mergeOne Config.New

/-- One registry mutation: a `Load` call or a `Write` call.  These are
the only operations that register keys. -/
inductive Op where
  | load (k : TypeKind) (name : String) (fallback : k.denote)
  | write (arg : WriteArg)

/-- Effect of one mutation on the registry. -/
def Op.step (env : Env) (c : Config) : Op → Config
  | .load k name fallback => Load env c k name fallback
  | .write arg => ((Write (some c) arg).2).getD c

/-- The registry after a sequence of `Load`/`Write` calls on a fresh
`New()` registry. -/
def runOps (env : Env) (ops : List Op) : Config :=
  ops.foldl (Op.step env) Config.New

/-- The key names an operation passes to `Load` or `Write` for the
per-type map of type `k`. -/
def Op.namesOf (k : TypeKind) : Op → List String
  | .load k' name _ => if k' = k then [name] else []
  | .write (.typed k' kvs) => if k' = k then kvs.map Prod.fst else []
  | .write .other => []

/-- The spec's rendering of a key list: "the missing names joined by
`\x22, \x22`", written from the spec's words to compare with the source's
`formatKeys`. -/
def joinComma : List String → String
  | [] => ""
  | [key] => key
  | key :: rest => key ++ ", " ++ joinComma rest

/-- The tail shape of a comma join: a leading `", "` before every
element.  Used to relate `formatKeys`'s indexed loop to `joinComma`. -/
def prefixedComma : List String → String
  | [] => ""
  | key :: rest => ", " ++ key ++ prefixedComma rest

theorem Config.regOf_setReg_same (c : Config) (k : TypeKind) (r : Reg k.denote) :
    (c.setReg k r).regOf k = r := by
  cases k <;> rfl

theorem Config.regOf_setReg_ne (c : Config) {k k' : TypeKind} (h : k ≠ k')
    (r : Reg k'.denote) : (c.setReg k' r).regOf k = c.regOf k := by
  cases k <;> cases k' <;> first | rfl | exact absurd rfl h

theorem Config.regOf_New_find (k : TypeKind) (name : String) :
    ((Config.New.regOf k).find name) = none := by
  cases k <;> rfl

theorem Config.getOf_find_some (c : Config) (k : TypeKind) (name : String)
    (v : k.denote) (h : (c.regOf k).find name = some v) : c.getOf k name = v := by
  cases k <;>
    (simp only [Config.regOf] at h
     simp only [Config.getOf, Config.getString, Config.getInt, Config.getInt8, Config.getInt16,
       Config.getInt32, Config.getInt64, Config.getUint, Config.getUint8, Config.getUint16,
       Config.getUint32, Config.getUint64, Config.getUintptr, Config.getBytes, Config.getRunes,
       Config.getFloat32, Config.getFloat64, Config.getBool]
     rw [h])

theorem Config.getOf_find_none (c : Config) (k : TypeKind) (name : String)
    (h : (c.regOf k).find name = none) : c.getOf k name = k.zero := by
  cases k <;>
    (simp only [Config.regOf] at h
     simp only [Config.getOf, Config.getString, Config.getInt, Config.getInt8, Config.getInt16,
       Config.getInt32, Config.getInt64, Config.getUint, Config.getUint8, Config.getUint16,
       Config.getUint32, Config.getUint64, Config.getUintptr, Config.getBytes, Config.getRunes,
       Config.getFloat32, Config.getFloat64, Config.getBool]
     rw [h]) <;> rfl

theorem Reg.find_insert_self {α : Type} (m : Reg α) (key : String) (v : α) :
    (m.insert key v).find key = some v := by
  simp [Reg.insert, Reg.find]

theorem Reg.find_insert_ne {α : Type} (m : Reg α) {key k' : String} (v : α)
    (h : k' ≠ key) : (m.insert key v).find k' = m.find k' := by
  simp [Reg.insert, Reg.find, h]

theorem Reg.find_foldl_insert_not_mem {α : Type} (kvs : List (String × α))
    (m : Reg α) (name : String) (h : name ∉ kvs.map Prod.fst) :
    ((kvs.foldl (fun m kv => m.insert kv.1 kv.2) m).find name) = m.find name := by
  induction kvs generalizing m with
  | nil => rfl
  | cons kv rest ih =>
    simp only [List.map_cons, List.mem_cons] at h
    push_neg at h
    simp only [List.foldl_cons]
    rw [ih _ h.2, Reg.find_insert_ne _ _ h.1]

theorem Reg.find_foldl_insert_mem {α : Type} (kvs : List (String × α))
    (m : Reg α) (name : String) (v : α) (hnd : (kvs.map Prod.fst).Nodup)
    (hmem : (name, v) ∈ kvs) :
    ((kvs.foldl (fun m kv => m.insert kv.1 kv.2) m).find name) = some v := by
  induction kvs generalizing m with
  | nil => cases hmem
  | cons kv rest ih =>
    simp only [List.map_cons, List.nodup_cons] at hnd
    simp only [List.foldl_cons]
    rcases List.mem_cons.mp hmem with heq | hrest
    · subst heq
      rw [Reg.find_foldl_insert_not_mem _ _ _ hnd.1, Reg.find_insert_self]
    · exact ih _ hnd.2 hrest

theorem Op.step_find_not_mentioned (env : Env) (c : Config) (op : Op) (k : TypeKind)
    (name : String) (h : name ∉ op.namesOf k) :
    (((op.step env c).regOf k).find name) = ((c.regOf k).find name) := by
  cases op with
  | load k' n fb =>
    simp only [Op.namesOf] at h
    by_cases hk : k' = k
    · subst hk
      simp only [eq_self_iff_true, if_true, List.mem_singleton] at h
      simp only [Op.step, Load, Config.regOf_setReg_same]
      exact Reg.find_insert_ne _ _ h
    · simp only [Op.step, Load]
      exact congrArg (fun r => Reg.find r name) (Config.regOf_setReg_ne c (fun hv => hk hv.symm) _)
  | write arg =>
    cases arg with
    | typed k' kvs =>
      simp only [Op.namesOf] at h
      by_cases hk : k' = k
      · subst hk
        simp only [eq_self_iff_true, if_true] at h
        simp only [Op.step, Write, Option.getD_some, writeCopy, Config.regOf_setReg_same]
        exact Reg.find_foldl_insert_not_mem _ _ _ h
      · simp only [Op.step, Write, Option.getD_some, writeCopy]
        exact congrArg (fun r => Reg.find r name) (Config.regOf_setReg_ne c (fun hv => hk hv.symm) _)
    | other => rfl

theorem runOps_find_not_mentioned_aux (env : Env) (ops : List Op) (k : TypeKind)
    (name : String) (h : ∀ op ∈ ops, name ∉ op.namesOf k) :
    ∀ c : Config, (((ops.foldl (Op.step env) c).regOf k).find name) = ((c.regOf k).find name) := by
  induction ops with
  | nil => intro c; rfl
  | cons op rest ih =>
    intro c
    simp only [List.foldl_cons]
    rw [ih (fun o ho => h o (List.mem_cons_of_mem _ ho)),
      Op.step_find_not_mentioned env c op k name (h op (List.mem_cons_self _ _))]

/-- C1: a key (a name together with its declared type) that no `Load`
and no `Write` call of the run ever names is absent from its type's
map, so the typed accessor for that type (`String`, `Int`, ..., `Bool`,
here dispatched by `Config.getOf`) returns the type's zero value: `""`
for strings, `0` for every integer and float width, `false` for bool,
and the empty sequence for byte and rune slices. -/
theorem unregistered_key_accessor_returns_zero (env : Env) (ops : List Op)
    (k : TypeKind) (name : String) (h : ∀ op ∈ ops, name ∉ op.namesOf k) :
    (runOps env ops).getOf k name = k.zero := by
  apply Config.getOf_find_none
  rw [runOps, runOps_find_not_mentioned_aux env ops k name h Config.New]
  exact Config.regOf_New_find k name

/-- Witness for C1: after loading an `int` key `"A"` and writing a
`string` key `"B"`, the string accessor on `"A"` returns `""`. -/
theorem unregistered_key_accessor_returns_zero_witness :
    (runOps (fun _ => none)
        [Op.load TypeKind.tint "A" 5,
         Op.write (WriteArg.typed TypeKind.tstring [("B", "x")])]).getOf
      TypeKind.tstring "A" = "" :=
  unregistered_key_accessor_returns_zero (fun _ => none)
    [Op.load TypeKind.tint "A" 5,
     Op.write (WriteArg.typed TypeKind.tstring [("B", "x")])]
    TypeKind.tstring "A" (by decide)

/-- C3: `Write` of a map of key/value pairs followed by the typed
accessor on a written key returns exactly the written value, whatever
the registry held before (so a prior `Load` result or an earlier
`Write` for the key is overridden); entries not named in the call — in
this type's map or any other — are unchanged. -/
theorem write_then_accessor_returns_written (c : Config) (k : TypeKind)
    (kvs : List (String × k.denote)) (c' : Config)
    (hw : (Write (some c) (WriteArg.typed k kvs)).2 = some c')
    (name : String) (v : k.denote)
    (hnd : (kvs.map Prod.fst).Nodup) (hmem : (name, v) ∈ kvs) :
    c'.getOf k name = v ∧
      ∀ (k' : TypeKind) (n' : String), (k' = k → n' ∉ kvs.map Prod.fst) →
        ((c'.regOf k').find n') = ((c.regOf k').find n') := by
  simp only [Write, Option.some.injEq] at hw
  subst hw
  constructor
  · apply Config.getOf_find_some
    simp only [writeCopy, Config.regOf_setReg_same]
    exact Reg.find_foldl_insert_mem kvs _ name v hnd hmem
  · intro k' n' hcond
    by_cases hk : k' = k
    · subst hk
      simp only [writeCopy, Config.regOf_setReg_same]
      exact Reg.find_foldl_insert_not_mem kvs _ n' (hcond rfl)
    · simp only [writeCopy]
      exact congrArg (fun r => Reg.find r n') (Config.regOf_setReg_ne c hk _)

/-- Witness for C3: writing `{PORT: 8080}` as an `int` map and reading
the `int` accessor on `PORT` yields `8080`. -/
theorem write_then_accessor_returns_written_witness :
    (writeCopy Config.New TypeKind.tint [("PORT", (8080 : Int))]).getOf
      TypeKind.tint "PORT" = 8080 :=
  (write_then_accessor_returns_written Config.New TypeKind.tint
    [("PORT", (8080 : Int))] _ rfl "PORT" 8080 (by decide) (by decide)).1

/-- C6: `Write` on a nil registry reference returns the
invalid-argument error (and there are no stored contents to change);
`Write` reaching the `default` branch of its type switch — a values map
whose element type is outside the supported set — returns the
unsupported-type error and leaves the registry exactly as it was. -/
theorem write_nil_or_unsupported_errors (arg : WriteArg) (c : Config) :
    Write none arg = (some "Config cannot be nil", none) ∧
    Write (some c) WriteArg.other = (some "unsupported values type", some c) :=
  ⟨rfl, rfl⟩

/-- C9: for every map built from a type of the closed `constraint` set
(every `WriteArg.typed` value) and every non-nil registry, `Write`
returns no error at all — in particular never the unsupported-type
error of the switch's `default` branch, since the switch cases
enumerate exactly the 17 constraint types (the `TypeKind`
constructors). -/
theorem write_supported_type_never_errors (c : Config) (k : TypeKind)
    (kvs : List (String × k.denote)) :
    (Write (some c) (WriteArg.typed k kvs)).1 = none := rfl

theorem Load_find_self (env : Env) (c : Config) (k : TypeKind) (name : String)
    (fallback : k.denote) :
    (((Load env c k name fallback).regOf k).find name) =
      some (envValue env k name fallback) := by
  simp only [Load, Config.regOf_setReg_same]
  exact Reg.find_insert_self _ _ _

/-- C5: `Load` stores exactly one value under the key in the map of the
key's declared type: the parsed text of the environment variable named
by the key when it is set and parses, and the fallback when it is unset
or its text fails to parse (the failure is absorbed — `Load` has no
error result at all); every other entry, in this type's map or any
other, is unchanged. -/
theorem load_stores_parsed_or_fallback (env : Env) (c : Config) (k : TypeKind)
    (name : String) (fallback : k.denote) :
    (∀ s v, env name = some s → k.parse s = some v →
        (Load env c k name fallback).getOf k name = v) ∧
    (env name = none → (Load env c k name fallback).getOf k name = fallback) ∧
    (∀ s, env name = some s → k.parse s = none →
        (Load env c k name fallback).getOf k name = fallback) ∧
    (∀ (k' : TypeKind) (n' : String), (k' = k → n' ≠ name) →
        (((Load env c k name fallback).regOf k').find n') = ((c.regOf k').find n')) := by
  refine ⟨?_, ?_, ?_, ?_⟩
  · intro s v hs hp
    apply Config.getOf_find_some
    rw [Load_find_self]
    simp [envValue, hs, hp]
  · intro hs
    apply Config.getOf_find_some
    rw [Load_find_self]
    simp [envValue, hs]
  · intro s hs hp
    apply Config.getOf_find_some
    rw [Load_find_self]
    simp [envValue, hs, hp]
  · intro k' n' hcond
    by_cases hk : k' = k
    · subst hk
      simp only [Load, Config.regOf_setReg_same]
      exact Reg.find_insert_ne _ _ (hcond rfl)
    · simp only [Load]
      exact congrArg (fun r => Reg.find r n') (Config.regOf_setReg_ne c hk _)

/-- Witness for C5: with `PORT=8080` in the environment, loading the
`int` key `PORT` with fallback `3000` stores `8080`. -/
theorem load_stores_parsed_or_fallback_witness :
    (Load (fun n => if n = "PORT" then some "8080" else none) Config.New
        TypeKind.tint "PORT" 3000).getOf TypeKind.tint "PORT" = 8080 :=
  (load_stores_parsed_or_fallback (fun n => if n = "PORT" then some "8080" else none)
      Config.New TypeKind.tint "PORT" 3000).1 "8080" 8080 rfl (by decide)

theorem Config.missingKeys_cons (c : Config) (key : KeyArg) (rest : List KeyArg) :
    c.missingKeys (key :: rest) =
      (if (c.checkKey key).2 then c.missingKeys rest
       else (c.checkKey key).1 :: c.missingKeys rest) := by
  simp only [Config.missingKeys, List.filterMap_cons]
  rcases h : c.checkKey key with ⟨n, b⟩
  cases b <;> simp

theorem Config.missingKeys_typed (c : Config) (tks : List (TypeKind × String)) :
    c.missingKeys (tks.map fun p => KeyArg.typed p.1 p.2) =
      (tks.filter fun p => !((c.regOf p.1).find p.2).isSome).map Prod.snd := by
  induction tks with
  | nil => rfl
  | cons p rest ih =>
    rw [List.map_cons, Config.missingKeys_cons, List.filter_cons]
    have hck : c.checkKey (KeyArg.typed p.1 p.2) =
        (p.2, ((c.regOf p.1).find p.2).isSome) := rfl
    rw [hck]
    cases hs : ((c.regOf p.1).find p.2).isSome with
    | true => simp [ih]
    | false => simp [ih]

/-- C2: `Exists` over a list of typed keys succeeds exactly when every
key is registered in its type's map; when it fails, the error's key
list is exactly the names of the unregistered keys, in input order (so
an empty input yields no error, and N keys with M unregistered yield a
list of length M). -/
theorem exists_error_iff_missing (c : Config) (tks : List (TypeKind × String)) :
    (c.Exists (tks.map fun p => KeyArg.typed p.1 p.2) = none ↔
      ∀ p ∈ tks, ((c.regOf p.1).find p.2).isSome = true) ∧
    ∀ err, c.Exists (tks.map fun p => KeyArg.typed p.1 p.2) = some err →
      err.Keys = (tks.filter fun p => !((c.regOf p.1).find p.2).isSome).map Prod.snd := by
  simp only [Config.Exists, Config.missingKeys_typed]
  constructor
  · by_cases hpos :
      0 < ((tks.filter fun p => !((c.regOf p.1).find p.2).isSome).map Prod.snd).length
    · simp only [if_pos hpos]
      constructor
      · intro habs; cases habs
      · intro hall
        exfalso
        rw [List.length_map, List.length_pos, ne_eq, List.filter_eq_nil_iff] at hpos
        exact hpos (fun p hp => by simp [hall p hp])
    · simp only [if_neg hpos]
      constructor
      · intro _ p hp
        rw [Nat.not_lt, Nat.le_zero, List.length_map, List.length_eq_zero] at hpos
        have := List.filter_eq_nil_iff.mp hpos p hp
        exact Option.ne_none_iff_isSome.mp (by simpa using this)
      · intro _; trivial
  · intro err herr
    by_cases hpos :
      0 < ((tks.filter fun p => !((c.regOf p.1).find p.2).isSome).map Prod.snd).length
    · rw [if_pos hpos] at herr
      cases herr
      rfl
    · rw [if_neg hpos] at herr
      cases herr

/-- Witness for C2: on a fresh registry, `Exists` with the single `int`
key `A` reports exactly `A` missing. -/
theorem exists_error_iff_missing_witness :
    (MissingVariableError.mk ["A"]).Keys =
      (([((TypeKind.tint : TypeKind), "A")].filter fun p =>
          !((Config.New.regOf p.1).find p.2).isSome).map Prod.snd) :=
  (exists_error_iff_missing Config.New [(TypeKind.tint, "A")]).2
    (MissingVariableError.mk ["A"]) (by decide)

theorem Config.missingKeys_append (c : Config) (l1 l2 : List KeyArg) :
    c.missingKeys (l1 ++ l2) = c.missingKeys l1 ++ c.missingKeys l2 := by
  simp [Config.missingKeys, List.filterMap_append]

/-- C10: a value passed to `Exists` whose dynamic type is not
`Variable[T]` for any supported `T` matches no case of `checkKey`'s
type switch, so `checkKey` reports it unregistered with the zero-value
name `""`; `Exists` therefore always fails, and the missing-key list
contains an `""` entry at that value's position. -/
theorem exists_other_key_is_missing_with_empty_name (c : Config)
    (pre post : List KeyArg) :
    c.checkKey KeyArg.other = ("", false) ∧
    ∃ err, c.Exists (pre ++ KeyArg.other :: post) = some err ∧
      err.Keys = c.missingKeys pre ++ "" :: c.missingKeys post := by
  refine ⟨rfl, ?_⟩
  have hm : c.missingKeys (pre ++ KeyArg.other :: post) =
      c.missingKeys pre ++ "" :: c.missingKeys post := by
    rw [Config.missingKeys_append, Config.missingKeys_cons]
    rfl
  refine ⟨⟨c.missingKeys pre ++ "" :: c.missingKeys post⟩, ?_, rfl⟩
  simp only [Config.Exists, hm]
  rw [if_pos]
  simp only [List.length_append, List.length_cons]
  omega

theorem Config.regOf_mergeOne (a c : Config) (k : TypeKind) :
    (mergeOne a c).regOf k = mapsCopy (a.regOf k) (c.regOf k) := by
  cases k <;> rfl

theorem mapsCopy_find_some {α : Type} (dst src : Reg α) (name : String) (v : α)
    (h : src.find name = some v) : (mapsCopy dst src).find name = some v := by
  simp only [mapsCopy, Reg.find] at h ⊢
  rw [h]

theorem mapsCopy_find_none {α : Type} (dst src : Reg α) (name : String)
    (h : src.find name = none) : (mapsCopy dst src).find name = dst.find name := by
  simp only [mapsCopy, Reg.find] at h ⊢
  rw [h]

theorem merge_foldl_find_none (k : TypeKind) (name : String) :
    ∀ (cfgs : List Config) (a : Config),
      (∀ c' ∈ cfgs, ((c'.regOf k).find name) = none) →
      (((cfgs.foldl mergeOne a).regOf k).find name) = ((a.regOf k).find name) := by
  intro cfgs
  induction cfgs with
  | nil => intro a _; rfl
  | cons c rest ih =>
    intro a h
    simp only [List.foldl_cons]
    rw [ih _ (fun x hx => h x (List.mem_cons_of_mem _ hx)), Config.regOf_mergeOne]
    exact mapsCopy_find_none _ _ _ (h c (List.mem_cons_self _ _))

/-- C4: `Merge` produces a registry whose per-type maps are the union
of the sources' maps applied in argument order: a key defined by some
source and by no later source reads back that source's value (so a key
defined in several sources takes the last definition, and a key defined
exactly once keeps its value), and a key defined by no source is
absent.  The source registries are values here, so they are untouched
by construction. -/
theorem merge_union_later_sources_win :
    (∀ (l1 l2 : List Config) (c : Config) (k : TypeKind) (name : String) (v : k.denote),
        ((c.regOf k).find name) = some v →
        (∀ c' ∈ l2, ((c'.regOf k).find name) = none) →
        (((Merge (l1 ++ c :: l2)).regOf k).find name) = some v) ∧
    (∀ (cfgs : List Config) (k : TypeKind) (name : String),
        (∀ c' ∈ cfgs, ((c'.regOf k).find name) = none) →
        (((Merge cfgs).regOf k).find name) = none) := by
  constructor
  · intro l1 l2 c k name v hc hl2
    simp only [Merge, List.foldl_append, List.foldl_cons]
    rw [merge_foldl_find_none k name l2 _ hl2, Config.regOf_mergeOne]
    exact mapsCopy_find_some _ _ _ _ hc
  · intro cfgs k name h
    simp only [Merge]
    rw [merge_foldl_find_none k name cfgs _ h]
    exact Config.regOf_New_find k name

/-- Witness for C4: merging two registries that both define the `int`
key `A` (first as `1`, then as `2`) yields `2` — the later source
wins. -/
theorem merge_union_later_sources_win_witness :
    (((Merge ([writeCopy Config.New TypeKind.tint [("A", (1 : Int))]] ++
        writeCopy Config.New TypeKind.tint [("A", (2 : Int))] :: [])).regOf
      TypeKind.tint).find "A") = some 2 :=
  merge_union_later_sources_win.1
    [writeCopy Config.New TypeKind.tint [("A", (1 : Int))]] []
    (writeCopy Config.New TypeKind.tint [("A", (2 : Int))])
    TypeKind.tint "A" 2 rfl (by simp)

theorem formatKeysLoop_pos (rest : List String) :
    ∀ (i : Nat) (r : String), 0 < i →
      formatKeysLoop rest i r = r ++ prefixedComma rest := by
  induction rest with
  | nil =>
    intro i r _
    simp [formatKeysLoop, prefixedComma, String.append_empty]
  | cons key rest' ih =>
    intro i r hi
    simp only [formatKeysLoop, prefixedComma, if_pos hi]
    rw [ih (i + 1) _ (Nat.succ_pos i)]
    simp [String.append_assoc]

theorem joinComma_eq_prefixed (key : String) (rest : List String) :
    joinComma (key :: rest) = key ++ prefixedComma rest := by
  induction rest generalizing key with
  | nil => simp [joinComma, prefixedComma, String.append_empty]
  | cons k2 rest' ih =>
    simp only [joinComma]
    rw [ih k2]
    simp [prefixedComma, String.append_assoc]

theorem formatKeys_nonempty (key : String) (rest : List String) :
    formatKeys (key :: rest) = joinComma (key :: rest) := by
  simp only [formatKeys]
  rw [if_neg (by simp)]
  simp only [formatKeysLoop]
  rw [if_neg (Nat.lt_irrefl 0), formatKeysLoop_pos rest (0 + 1) _ (Nat.succ_pos 0),
    joinComma_eq_prefixed, String.empty_append]

/-- C7: the string form of a missing-key error's list is the missing
names joined by `", "`; the literal `"none"` appears only for an empty
list, which no error produced by `Exists` carries. -/
theorem missing_error_string_is_joined_keys :
    formatKeys [] = "none" ∧
    ∀ (c : Config) (keys : List KeyArg) (err : MissingVariableError),
      c.Exists keys = some err →
        err.ErrorString = "missing configuration variables: " ++ joinComma err.Keys := by
  refine ⟨rfl, ?_⟩
  intro c keys err herr
  have hne : err.Keys ≠ [] := by
    simp only [Config.Exists] at herr
    by_cases hpos : 0 < (c.missingKeys keys).length
    · rw [if_pos hpos] at herr
      cases herr
      simpa using List.length_pos.mp hpos
    · rw [if_neg hpos] at herr
      cases herr
  rcases hk : err.Keys with _ | ⟨key, rest⟩
  · exact absurd hk hne
  · simp only [MissingVariableError.ErrorString, hk, formatKeys_nonempty]

/-- Witness for C7: the error listing only `A` renders its key list as
`"A"`. -/
theorem missing_error_string_is_joined_keys_witness :
    (MissingVariableError.mk ["A"]).ErrorString =
      "missing configuration variables: " ++ joinComma ["A"] :=
  missing_error_string_is_joined_keys.2 Config.New
    [KeyArg.typed TypeKind.tint "A"] (MissingVariableError.mk ["A"]) (by decide)

/-- C8: unwrapping any `MissingVariableError` — in particular every
error returned by `Exists` — yields exactly the shared sentinel
`ErrMissingVariable`, which itself unwraps no further (it is the shared
"configuration missing" category the error is classifiable under). -/
theorem missing_error_unwraps_to_sentinel :
    (∀ e : MissingVariableError,
        GoError.unwrap (GoError.missing e) = some ErrMissingVariable) ∧
    GoError.unwrap ErrMissingVariable = none ∧
    ∀ (c : Config) (keys : List KeyArg) (err : MissingVariableError),
      c.Exists keys = some err →
        GoError.unwrap (GoError.missing err) = some ErrMissingVariable :=
  ⟨fun _ => rfl, rfl, fun _ _ _ _ => rfl⟩

/-- Witness for C8: the error listing only `A` unwraps to the
sentinel. -/
theorem missing_error_unwraps_to_sentinel_witness :
    GoError.unwrap (GoError.missing (MissingVariableError.mk ["A"])) =
      some ErrMissingVariable :=
  missing_error_unwraps_to_sentinel.2.2 Config.New
    [KeyArg.typed TypeKind.tint "A"] (MissingVariableError.mk ["A"]) (by decide)
